import Mathlib

/-!
Verification of the container identity enrichment cache
(containermetadata/k8swatcher.go) and of the file-ID mappers
(processmanager/helpers.go) of the opentelemetry-ebpf-profiler fork.

The shallow embedding models:
* the concurrent cache (a sync.Map from canonical container id to a
  node-filtered pod) as a function from String to Option K8sPod, with
  Store, Delete and Load mirroring the sync.Map operations used;
* the cache-updating loops of FetchK8sState and of the SubscribeToRedis
  event loop as pure folds over the decoded entities and events;
* the transports (HTTP fetch, JSON decode, Redis receive) as explicit
  inputs: Except values for the one-shot fetch and the decoder, and a
  list of receive results for the subscription stream.
-/

set_option linter.unusedVariables false

/-- Go struct K8sContainer (k8swatcher.go lines 85-88). -/
structure K8sContainer where
  Id : String
  Name : String
deriving DecidableEq

/-- Go struct K8sOwner (k8swatcher.go lines 67-70). -/
structure K8sOwner where
  Name : String
  Kind : String
deriving DecidableEq

/-- Go struct K8sPod (k8swatcher.go lines 46-53). -/
structure K8sPod where
  Name : String
  Namespace : String
  NodeName : String
  Containers : List K8sContainer
  Ips : List String
  Owner : K8sOwner
deriving DecidableEq

/-- Go struct K8sEntity (k8swatcher.go lines 42-44). -/
structure K8sEntity where
  Pod : K8sPod
deriving DecidableEq

/-- Go struct K8sStateResponse (k8swatcher.go lines 33-35). -/
structure K8sStateResponse where
  Entities : List K8sEntity
deriving DecidableEq

/-- Go struct K8sRedisEvent (k8swatcher.go lines 97-101): the tagged
union over Modified, Deleted and Refresh, each field optional. -/
structure K8sRedisEvent where
  Modified : Option K8sEntity
  Deleted : Option K8sEntity
  Refresh : Bool
deriving DecidableEq

/-- The enrichment cache: the sync.Map from canonical container id to the
node-filtered pod record (field cache of K8sEnricher, k8swatcher.go line 94),
modelled by its lookup function. -/
abbrev Cache := String → Option K8sPod

/-- The cache of a freshly constructed K8sEnricher (NewK8sEnricher,
k8swatcher.go line 111): an empty sync.Map. -/
def Cache.emptyC : Cache := fun _ => none

/-- sync.Map Store as used at k8swatcher.go lines 153 and 208. -/
def Cache.Store (c : Cache) (k : String) (v : K8sPod) : Cache :=
  fun k' => if k' = k then some v else c k'

/-- sync.Map Delete as used at k8swatcher.go line 220. -/
def Cache.Delete (c : Cache) (k : String) : Cache :=
  fun k' => if k' = k then none else c k'

/-- sync.Map Load: the read side exposed to the profiling pipeline. -/
def Cache.Load (c : Cache) (k : String) : Option K8sPod := c k

/-- Modelled from the spec: matchContainerID is code of the
containermetadata package that is not under src/; the spec describes it as
the IdentifierMatcher collaborator, a pure function from a raw container
identifier to a canonical ContainerKey or NoMatch. It is modelled as an
abstract function returning an optional canonical key. -/
abbrev Matcher := String → Option String

/-- Modelled from the spec: the Go matchContainerID returns a pair of a
string and an error; on NoMatch the error is non-nil and the string is the
Go zero value, the empty string. matchVal is the string component alone,
which the inner filtering loops read while discarding the error
(k8swatcher.go lines 148 and 203). -/
def matchVal (m : Matcher) (s : String) : String := (m s).getD ""

/-- Modelled from the spec: a canonical ContainerKey is a fixed-length
(64 character) hex string, so a successful match never yields the empty
string, which is the Go zero value that matchContainerID returns on error. -/
def ValidMatcher (m : Matcher) : Prop := ∀ s k, m s = some k → k ≠ ""

/-- The per-container filtered pod built at k8swatcher.go lines 142-152 and
197-207: a copy of the pod whose Containers list is reset and then receives
the first container of the original pod whose match value equals the given
canonical id (the loop breaks after the first hit). -/
def filterPod (m : Matcher) (pod : K8sPod) (id : String) : K8sPod :=
  { pod with Containers :=
      match pod.Containers.find? (fun c => matchVal m c.Id == id) with
      | some c => [c]
      | none => [] }

/-- The per-pod store loop shared by FetchK8sState (lines 139-155) and the
Modified branch of SubscribeToRedis (lines 194-212): for every container of
the pod whose id matches, store the filtered pod under the canonical id. -/
def applyPodContainers (m : Matcher) (cache : Cache) (pod : K8sPod) : Cache :=
  pod.Containers.foldl (fun cache container =>
    match m container.Id with
    | some id => cache.Store id (filterPod m pod id)
    | none => cache) cache

/-- The per-pod delete loop of the Deleted branch of SubscribeToRedis
(k8swatcher.go lines 216-223). -/
def deletePodContainers (m : Matcher) (cache : Cache) (pod : K8sPod) : Cache :=
  pod.Containers.foldl (fun cache container =>
    match m container.Id with
    | some id => cache.Delete id
    | none => cache) cache

/-- The cache-update loop of FetchK8sState over the decoded state
(k8swatcher.go lines 136-157): entities whose pod is on another node are
skipped; local pods go through the per-container store loop. -/
def updateCacheFromState (m : Matcher) (myNode : String) (cache : Cache)
    (entities : List K8sEntity) : Cache :=
  entities.foldl (fun cache entity =>
    if entity.Pod.NodeName = myNode then applyPodContainers m cache entity.Pod
    else cache) cache

/-- FetchK8sState (k8swatcher.go lines 121-168). The single HTTP GET is an
explicit input httpResp; the JSON decoding of the body is the input decode.
The result is the returned error (none on success), the cache after the
update loop, and the number of HTTP fetches issued by the call. The
retryAttempts argument is the configured K8sWatcherConfig.RetryAttempts
field (lines 22-26), which the function body never reads. -/
def FetchK8sState (m : Matcher) (retryAttempts : Nat)
    (httpResp : Except String String)
    (decode : String → Except String K8sStateResponse)
    (myNode : String) (cache : Cache) : Option String × Cache × Nat :=
  match httpResp with
  | .error e => (some e, cache, 1)
  | .ok body =>
      match decode body with
      | .error e => (some e, cache, 1)
      | .ok state => (none, updateCacheFromState m myNode cache state.Entities, 1)

/-- The event dispatch of the SubscribeToRedis loop body (k8swatcher.go
lines 192-226): the Modified branch is checked first, then Deleted; the
Refresh field is never examined, so an event with both entity fields absent
leaves the cache as it is. -/
def applyEvent (m : Matcher) (myNode : String) (cache : Cache)
    (event : K8sRedisEvent) : Cache :=
  match event.Modified with
  | some entity =>
      if entity.Pod.NodeName = myNode then applyPodContainers m cache entity.Pod
      else cache
  | none =>
      match event.Deleted with
      | some entity =>
          if entity.Pod.NodeName = myNode then deletePodContainers m cache entity.Pod
          else cache
      | none => cache

/-- Processing of one received payload (k8swatcher.go lines 186-226): a
payload that fails to unmarshal is logged and skipped, leaving the cache
unchanged; otherwise the decoded event is dispatched. -/
def processMessage (m : Matcher) (myNode : String)
    (parse : String → Except String K8sRedisEvent)
    (cache : Cache) (payload : String) : Cache :=
  match parse payload with
  | .error _ => cache
  | .ok event => applyEvent m myNode cache event

/-- Outcome of the SubscribeToRedis receive loop on a finite trace of
receive results. -/
inductive StreamOutcome where
  | running
  | panicked (msg : String)
deriving DecidableEq

/-- The SubscribeToRedis receive loop (k8swatcher.go lines 180-227) run on a
finite trace of ReceiveMessage results: a receive error panics at once
(line 183), leaving the rest of the trace unconsumed; a received payload is
processed and the loop continues; an exhausted trace leaves the loop
awaiting the next message. -/
def subscribeLoop (m : Matcher) (myNode : String)
    (parse : String → Except String K8sRedisEvent) :
    Cache → List (Except String String) → StreamOutcome × Cache
  | cache, [] => (.running, cache)
  | cache, .error e :: _ => (.panicked e, cache)
  | cache, .ok payload :: rest =>
      subscribeLoop m myNode parse (processMessage m myNode parse cache payload) rest

/-- Outcome of the K8sWatcher startup call. -/
inductive WatcherOutcome where
  | started (cache : Cache)
  | fatalExit (msg : String)

/-- K8sWatcher (k8swatcher.go lines 232-262): builds the enricher with a
fresh empty cache and RetryAttempts set to 3, performs the one bootstrap
fetch, and on a fetch error terminates the process through log.Fatalf
(line 251); on success it returns the cache and spawns the subscription
goroutine. -/
def K8sWatcher (m : Matcher) (nodeName : String)
    (httpResp : Except String String)
    (decode : String → Except String K8sStateResponse) : WatcherOutcome :=
  match FetchK8sState m 3 httpResp decode nodeName Cache.emptyC with
  | (some e, _, _) => .fatalExit ("Failed to fetch k8s state: " ++ e)
  | (none, cache, _) => .started cache

/-! File-ID mappers of processmanager/helpers.go. -/

/-- host.FileID is a 64-bit hash identifier; it is only used as a map key
here, so it is modelled by Nat. -/
abbrev FileID := Nat

/-- Modelled from the spec: libpf.FrameMappingFile (package libpf, outside
src/) carries the symbolization metadata for a binary file; the fields
visible in helpers.go are a file id, a file name and a GNU build id. Only
its Go zero value and decidable equality matter for the claims below. -/
structure FrameMappingFile where
  fileID : Nat
  fileName : String
  gnuBuildID : String
deriving DecidableEq

/-- The Go zero value of FrameMappingFile, returned by both Get methods on
a miss (helpers.go lines 52 and 77). -/
def FrameMappingFile.zeroValue : FrameMappingFile :=
  { fileID := 0, fileName := "", gnuBuildID := "" }

/-- Go struct MapFileIDMapper (helpers.go lines 63-65): a plain Go map,
modelled by its lookup function. -/
structure MapFileIDMapper where
  fileMap : FileID → Option FrameMappingFile

/-- MapFileIDMapper.Get (helpers.go lines 73-78): returns the stored value
and true on a hit, and the zero value and true on a miss. -/
def MapFileIDMapper.Get (fm : MapFileIDMapper) (key : FileID) :
    FrameMappingFile × Bool :=
  match fm.fileMap key with
  | some value => (value, true)
  | none => (FrameMappingFile.zeroValue, true)

/-- MapFileIDMapper.Set (helpers.go lines 80-82). -/
def MapFileIDMapper.Set (fm : MapFileIDMapper) (key : FileID)
    (value : FrameMappingFile) : MapFileIDMapper :=
  { fileMap := fun k => if k = key then some value else fm.fileMap k }

/-- Go struct lruFileIDMapper (helpers.go lines 28-30); the external
go-freelru SyncedLRU store is modelled by its lookup function. -/
structure lruFileIDMapper where
  cache : FileID → Option FrameMappingFile

/-- lruFileIDMapper.Get (helpers.go lines 46-53): returns the stored value
and true on a hit, and logs and returns the zero value and false on a miss. -/
def lruFileIDMapper.Get (fm : lruFileIDMapper) (key : FileID) :
    FrameMappingFile × Bool :=
  match fm.cache key with
  | some mappingFile => (mappingFile, true)
  | none => (FrameMappingFile.zeroValue, false)

/-! Concrete example data used by the witnesses. -/

/-- A concrete matcher for witnesses: one raw id maps to one canonical key. -/
def mEx : Matcher := fun s => if s = "raw-one" then some "key-one" else none

/-- A concrete container for witnesses. -/
def containerEx : K8sContainer := { Id := "raw-one", Name := "app" }

/-- A concrete pod for witnesses. -/
def podEx : K8sPod :=
  { Name := "web-1", Namespace := "default", NodeName := "nodeA",
    Containers := [containerEx], Ips := ["10.0.0.5"],
    Owner := { Name := "rs", Kind := "ReplicaSet" } }

/-- A concrete entity for witnesses. -/
def entityEx : K8sEntity := { Pod := podEx }

/-- A concrete decoder that always fails, for the counterexample input. -/
def decodeEx : String → Except String K8sStateResponse :=
  fun _ => .error "decode-unreached"

/-- A concrete payload parser that always fails, for witnesses. -/
def parseFailEx : String → Except String K8sRedisEvent :=
  fun _ => .error "bad JSON"

/-- A concrete pod on a different node, for witnesses. -/
def podBEx : K8sPod :=
  { Name := "web-2", Namespace := "default", NodeName := "nodeB",
    Containers := [containerEx], Ips := ["10.0.0.6"],
    Owner := { Name := "rs", Kind := "ReplicaSet" } }

/-- A concrete entity on a different node, for witnesses. -/
def entityBEx : K8sEntity := { Pod := podBEx }

/-- The pure Refresh event: Modified and Deleted absent, Refresh set. -/
def refreshEventEx : K8sRedisEvent :=
  { Modified := none, Deleted := none, Refresh := true }

/-- A concrete payload parser that always yields the Refresh event. -/
def parseRefreshEx : String → Except String K8sRedisEvent :=
  fun _ => .ok refreshEventEx

/-- A record-level invariant holding of every stored entry of a cache. -/
def CacheProp (P : String → K8sPod → Prop) (cache : Cache) : Prop :=
  ∀ k p, cache k = some p → P k p

/-- The C1 invariant: every stored pod record holds exactly one container,
and that container is the one whose identifier matches the key it is
stored under. -/
def SingletonInv (m : Matcher) (cache : Cache) : Prop :=
  CacheProp (fun k p => ∃ c, p.Containers = [c] ∧ m c.Id = some k) cache

/-- The C2 invariant: every stored pod record belongs to the local node. -/
def NodeLocalInv (myNode : String) (cache : Cache) : Prop :=
  CacheProp (fun _ p => p.NodeName = myNode) cache

/-! Pointwise characterization of the per-pod store and delete loops. -/

/-- The store loop writes exactly the canonical ids of the matching
containers of the pod, each to the filtered pod for that id; other keys are
untouched. Stated for any sublist of the iteration. -/
theorem foldStore_lookup (m : Matcher) (pod : K8sPod) :
    ∀ (l : List K8sContainer) (cache : Cache) (k : String),
    (l.foldl (fun cache container =>
      match m container.Id with
      | some id => cache.Store id (filterPod m pod id)
      | none => cache) cache) k =
    if ∃ c ∈ l, m c.Id = some k then some (filterPod m pod k) else cache k := by
  intro l
  induction l with
  | nil => intro cache k; simp
  | cons c0 l ih =>
      intro cache k
      simp only [List.foldl_cons]
      cases hc0 : m c0.Id with
      | none =>
          rw [ih]
          by_cases h : ∃ c ∈ l, m c.Id = some k
          · rw [if_pos h, if_pos]
            obtain ⟨c, hc, hck⟩ := h
            exact ⟨c, List.mem_cons_of_mem _ hc, hck⟩
          · rw [if_neg h, if_neg]
            intro hcon
            obtain ⟨c, hc, hck⟩ := hcon
            rcases List.mem_cons.mp hc with rfl | hc
            · rw [hc0] at hck; cases hck
            · exact h ⟨c, hc, hck⟩
      | some k0 =>
          rw [ih]
          by_cases h : ∃ c ∈ l, m c.Id = some k
          · rw [if_pos h, if_pos]
            obtain ⟨c, hc, hck⟩ := h
            exact ⟨c, List.mem_cons_of_mem _ hc, hck⟩
          · rw [if_neg h]
            by_cases hk : k = k0
            · subst hk
              rw [if_pos ⟨c0, List.mem_cons_self _ _, hc0⟩]
              simp [Cache.Store]
            · rw [if_neg]
              · simp [Cache.Store, hk]
              · intro hcon
                obtain ⟨c, hc, hck⟩ := hcon
                rcases List.mem_cons.mp hc with rfl | hc
                · rw [hc0] at hck
                  exact hk (Option.some.inj hck).symm
                · exact h ⟨c, hc, hck⟩

/-- Pointwise reading of applyPodContainers. -/
theorem applyPodContainers_lookup (m : Matcher) (cache : Cache) (pod : K8sPod)
    (k : String) :
    applyPodContainers m cache pod k =
    if ∃ c ∈ pod.Containers, m c.Id = some k then some (filterPod m pod k)
    else cache k :=
  foldStore_lookup m pod pod.Containers cache k

/-- The delete loop removes exactly the canonical ids of the matching
containers of the pod. -/
theorem foldDelete_lookup (m : Matcher) :
    ∀ (l : List K8sContainer) (cache : Cache) (k : String),
    (l.foldl (fun cache container =>
      match m container.Id with
      | some id => cache.Delete id
      | none => cache) cache) k =
    if ∃ c ∈ l, m c.Id = some k then none else cache k := by
  intro l
  induction l with
  | nil => intro cache k; simp
  | cons c0 l ih =>
      intro cache k
      simp only [List.foldl_cons]
      cases hc0 : m c0.Id with
      | none =>
          rw [ih]
          by_cases h : ∃ c ∈ l, m c.Id = some k
          · rw [if_pos h, if_pos]
            obtain ⟨c, hc, hck⟩ := h
            exact ⟨c, List.mem_cons_of_mem _ hc, hck⟩
          · rw [if_neg h, if_neg]
            intro hcon
            obtain ⟨c, hc, hck⟩ := hcon
            rcases List.mem_cons.mp hc with rfl | hc
            · rw [hc0] at hck; cases hck
            · exact h ⟨c, hc, hck⟩
      | some k0 =>
          rw [ih]
          by_cases h : ∃ c ∈ l, m c.Id = some k
          · rw [if_pos h, if_pos]
            obtain ⟨c, hc, hck⟩ := h
            exact ⟨c, List.mem_cons_of_mem _ hc, hck⟩
          · rw [if_neg h]
            by_cases hk : k = k0
            · subst hk
              rw [if_pos ⟨c0, List.mem_cons_self _ _, hc0⟩]
              simp [Cache.Delete]
            · rw [if_neg]
              · simp [Cache.Delete, hk]
              · intro hcon
                obtain ⟨c, hc, hck⟩ := hcon
                rcases List.mem_cons.mp hc with rfl | hc
                · rw [hc0] at hck
                  exact hk (Option.some.inj hck).symm
                · exact h ⟨c, hc, hck⟩

/-- Pointwise reading of deletePodContainers. -/
theorem deletePodContainers_lookup (m : Matcher) (cache : Cache) (pod : K8sPod)
    (k : String) :
    deletePodContainers m cache pod k =
    if ∃ c ∈ pod.Containers, m c.Id = some k then none else cache k :=
  foldDelete_lookup m pod.Containers cache k

/-! Helper lemmas. -/

/-- mEx satisfies the spec contract on canonical keys. -/
theorem mEx_valid : ValidMatcher mEx := by
  intro s k h
  by_cases hs : s = "raw-one"
  · simp [mEx, hs] at h
    simp [← h]
  · simp [mEx, hs] at h

/-- The empty cache satisfies every record-level invariant. -/
theorem emptyC_cacheProp (P : String → K8sPod → Prop) : CacheProp P Cache.emptyC :=
  fun _ _ h => Option.noConfusion h

/-- When some container of the pod matches to the canonical key k and the
matcher honours the nonempty-key contract, the filtered pod for k holds
exactly one container, and its identifier matches to k. -/
theorem filterPod_singleton (m : Matcher) (hm : ValidMatcher m) (pod : K8sPod)
    (k : String) (h : ∃ c ∈ pod.Containers, m c.Id = some k) :
    ∃ c, (filterPod m pod k).Containers = [c] ∧ m c.Id = some k := by
  obtain ⟨c0, hc0, hc0k⟩ := h
  have hfind : pod.Containers.find? (fun c => matchVal m c.Id == k) ≠ none := by
    intro hnone
    rw [List.find?_eq_none] at hnone
    have := hnone c0 hc0
    simp [matchVal, hc0k] at this
  obtain ⟨c, hc⟩ := Option.ne_none_iff_exists'.mp hfind
  refine ⟨c, ?_, ?_⟩
  · simp [filterPod, hc]
  · have hpc := List.find?_some hc
    have hval : matchVal m c.Id = k := by simpa using hpc
    cases hmc : m c.Id with
    | none =>
        have hke : "" = k := by simpa [matchVal, hmc] using hval
        exact absurd hke.symm (hm _ _ hc0k)
    | some k' =>
        have hk' : k' = k := by simpa [matchVal, hmc] using hval
        rw [hk']

/-- The store loop preserves any record-level invariant satisfied by the
filtered pods it writes. -/
theorem applyPodContainers_preserves (m : Matcher) (P : String → K8sPod → Prop)
    (pod : K8sPod)
    (hP : ∀ k, (∃ c ∈ pod.Containers, m c.Id = some k) → P k (filterPod m pod k))
    (cache : Cache) (hc : CacheProp P cache) :
    CacheProp P (applyPodContainers m cache pod) := by
  intro k p hp
  rw [applyPodContainers_lookup] at hp
  by_cases h : ∃ c ∈ pod.Containers, m c.Id = some k
  · rw [if_pos h] at hp
    exact (Option.some.inj hp) ▸ hP k h
  · rw [if_neg h] at hp
    exact hc k p hp

/-- The delete loop preserves every record-level invariant. -/
theorem deletePodContainers_preserves (m : Matcher) (P : String → K8sPod → Prop)
    (pod : K8sPod) (cache : Cache) (hc : CacheProp P cache) :
    CacheProp P (deletePodContainers m cache pod) := by
  intro k p hp
  rw [deletePodContainers_lookup] at hp
  by_cases h : ∃ c ∈ pod.Containers, m c.Id = some k
  · rw [if_pos h] at hp
    cases hp
  · rw [if_neg h] at hp
    exact hc k p hp

/-- The bootstrap update loop preserves any record-level invariant that the
filtered pods of local pods satisfy. -/
theorem updateCacheFromState_preserves (m : Matcher) (myNode : String)
    (P : String → K8sPod → Prop)
    (hP : ∀ pod : K8sPod, pod.NodeName = myNode →
      ∀ k, (∃ c ∈ pod.Containers, m c.Id = some k) → P k (filterPod m pod k)) :
    ∀ (entities : List K8sEntity) (cache : Cache), CacheProp P cache →
    CacheProp P (updateCacheFromState m myNode cache entities) := by
  intro entities
  induction entities with
  | nil => intro cache hc; exact hc
  | cons e es ih =>
      intro cache hc
      have hstep : CacheProp P
          (if e.Pod.NodeName = myNode then applyPodContainers m cache e.Pod
           else cache) := by
        by_cases hn : e.Pod.NodeName = myNode
        · rw [if_pos hn]
          exact applyPodContainers_preserves m P e.Pod (hP e.Pod hn) cache hc
        · rw [if_neg hn]
          exact hc
      exact ih _ hstep

/-- Event dispatch preserves any record-level invariant that the filtered
pods of local pods satisfy. -/
theorem applyEvent_preserves (m : Matcher) (myNode : String)
    (P : String → K8sPod → Prop)
    (hP : ∀ pod : K8sPod, pod.NodeName = myNode →
      ∀ k, (∃ c ∈ pod.Containers, m c.Id = some k) → P k (filterPod m pod k)) :
    ∀ (ev : K8sRedisEvent) (cache : Cache), CacheProp P cache →
    CacheProp P (applyEvent m myNode cache ev) := by
  intro ev cache hc
  rcases ev with ⟨mod, del, refresh⟩
  cases mod with
  | some entity =>
      by_cases hn : entity.Pod.NodeName = myNode
      · simpa [applyEvent, hn] using
          applyPodContainers_preserves m P entity.Pod (hP _ hn) cache hc
      · simpa [applyEvent, hn] using hc
  | none =>
      cases del with
      | some entity =>
          by_cases hn : entity.Pod.NodeName = myNode
          · simpa [applyEvent, hn] using
              deletePodContainers_preserves m P entity.Pod cache hc
          · simpa [applyEvent, hn] using hc
      | none => simpa [applyEvent] using hc

/-- Message processing preserves any record-level invariant that the
filtered pods of local pods satisfy. -/
theorem processMessage_preserves (m : Matcher) (myNode : String)
    (P : String → K8sPod → Prop)
    (hP : ∀ pod : K8sPod, pod.NodeName = myNode →
      ∀ k, (∃ c ∈ pod.Containers, m c.Id = some k) → P k (filterPod m pod k))
    (parse : String → Except String K8sRedisEvent)
    (cache : Cache) (payload : String) (hc : CacheProp P cache) :
    CacheProp P (processMessage m myNode parse cache payload) := by
  cases hp : parse payload with
  | error e => simpa [processMessage, hp] using hc
  | ok ev => simpa [processMessage, hp] using
      applyEvent_preserves m myNode P hP ev cache hc

/-- The receive loop preserves any record-level invariant that the filtered
pods of local pods satisfy. -/
theorem subscribeLoop_preserves (m : Matcher) (myNode : String)
    (P : String → K8sPod → Prop)
    (hP : ∀ pod : K8sPod, pod.NodeName = myNode →
      ∀ k, (∃ c ∈ pod.Containers, m c.Id = some k) → P k (filterPod m pod k))
    (parse : String → Except String K8sRedisEvent) :
    ∀ (msgs : List (Except String String)) (cache : Cache), CacheProp P cache →
    CacheProp P (subscribeLoop m myNode parse cache msgs).2 := by
  intro msgs
  induction msgs with
  | nil => intro cache hc; simpa [subscribeLoop] using hc
  | cons msg rest ih =>
      intro cache hc
      cases msg with
      | error e => simpa [subscribeLoop] using hc
      | ok payload =>
          have hstep := processMessage_preserves m myNode P hP parse cache payload hc
          simpa [subscribeLoop] using ih _ hstep

/-- FetchK8sState preserves any record-level invariant that the filtered
pods of local pods satisfy. -/
theorem FetchK8sState_preserves (m : Matcher) (myNode : String)
    (P : String → K8sPod → Prop)
    (hP : ∀ pod : K8sPod, pod.NodeName = myNode →
      ∀ k, (∃ c ∈ pod.Containers, m c.Id = some k) → P k (filterPod m pod k))
    (retryAttempts : Nat) (httpResp : Except String String)
    (decode : String → Except String K8sStateResponse)
    (cache : Cache) (hc : CacheProp P cache) :
    CacheProp P (FetchK8sState m retryAttempts httpResp decode myNode cache).2.1 := by
  cases httpResp with
  | error e => simpa [FetchK8sState] using hc
  | ok body =>
      cases hd : decode body with
      | error e => simpa [FetchK8sState, hd] using hc
      | ok state => simpa [FetchK8sState, hd] using
          updateCacheFromState_preserves m myNode P hP state.Entities cache hc

/-! Claim theorems. -/

/-- C1: for every pod record stored in the ContainerIndex under a canonical
container key, whether by the bootstrap reconciliation of FetchK8sState, by
a Modified event dispatched by SubscribeToRedis, or by any run of the
receive loop, the stored record holds exactly one container, and that
container is the one whose identifier matched that canonical key. Stated
as preservation of the SingletonInv invariant from any cache satisfying it
(in particular from the empty cache the enricher starts with). -/
theorem claim1_singleton_container (m : Matcher) (hm : ValidMatcher m)
    (myNode : String) (cache : Cache) (hc : SingletonInv m cache) :
    (∀ (retryAttempts : Nat) (httpResp : Except String String)
        (decode : String → Except String K8sStateResponse),
      SingletonInv m
        (FetchK8sState m retryAttempts httpResp decode myNode cache).2.1)
  ∧ (∀ ev : K8sRedisEvent, SingletonInv m (applyEvent m myNode cache ev))
  ∧ (∀ (parse : String → Except String K8sRedisEvent)
        (msgs : List (Except String String)),
      SingletonInv m (subscribeLoop m myNode parse cache msgs).2) := by
  have hP : ∀ pod : K8sPod, pod.NodeName = myNode →
      ∀ k, (∃ c ∈ pod.Containers, m c.Id = some k) →
      (∃ c, (filterPod m pod k).Containers = [c] ∧ m c.Id = some k) :=
    fun pod _ k hex => filterPod_singleton m hm pod k hex
  refine ⟨?_, ?_, ?_⟩
  · intro retryAttempts httpResp decode
    exact FetchK8sState_preserves m myNode _ hP retryAttempts httpResp decode cache hc
  · intro ev
    exact applyEvent_preserves m myNode _ hP ev cache hc
  · intro parse msgs
    exact subscribeLoop_preserves m myNode _ hP parse msgs cache hc

/-- C1 witness: a Modified event for a local one-container pod applied to
the empty cache yields a cache satisfying the singleton invariant. -/
theorem claim1_singleton_container_witness :
    SingletonInv mEx (applyEvent mEx "nodeA" Cache.emptyC
      { Modified := some entityEx, Deleted := none, Refresh := false }) :=
  (claim1_singleton_container mEx mEx_valid "nodeA" Cache.emptyC
    (emptyC_cacheProp _)).2.1
    { Modified := some entityEx, Deleted := none, Refresh := false }

/-- C2: an entity whose pod lives on another node contributes nothing to
the index: dropping it from the bootstrap state changes nothing, a Modified
or Deleted event carrying it leaves the cache untouched, and both the
bootstrap fetch and the receive loop preserve the invariant that every
stored record belongs to the local node. -/
theorem claim2_node_local_only (m : Matcher) (myNode : String) (e : K8sEntity)
    (h : e.Pod.NodeName ≠ myNode) :
    (∀ (cache : Cache) (es₁ es₂ : List K8sEntity),
        updateCacheFromState m myNode cache (es₁ ++ e :: es₂) =
        updateCacheFromState m myNode cache (es₁ ++ es₂))
  ∧ (∀ (cache : Cache) (ev : K8sRedisEvent), ev.Modified = some e →
        applyEvent m myNode cache ev = cache)
  ∧ (∀ (cache : Cache) (ev : K8sRedisEvent), ev.Modified = none →
        ev.Deleted = some e → applyEvent m myNode cache ev = cache)
  ∧ (∀ cache : Cache, NodeLocalInv myNode cache →
        ∀ (retryAttempts : Nat) (httpResp : Except String String)
          (decode : String → Except String K8sStateResponse),
        NodeLocalInv myNode
          (FetchK8sState m retryAttempts httpResp decode myNode cache).2.1)
  ∧ (∀ cache : Cache, NodeLocalInv myNode cache →
        ∀ (parse : String → Except String K8sRedisEvent)
          (msgs : List (Except String String)),
        NodeLocalInv myNode (subscribeLoop m myNode parse cache msgs).2) := by
  have hP : ∀ pod : K8sPod, pod.NodeName = myNode →
      ∀ k, (∃ c ∈ pod.Containers, m c.Id = some k) →
      (filterPod m pod k).NodeName = myNode :=
    fun pod hn _ _ => hn
  refine ⟨?_, ?_, ?_, ?_, ?_⟩
  · intro cache es₁ es₂
    simp only [updateCacheFromState, List.foldl_append, List.foldl_cons]
    rw [if_neg h]
  · intro cache ev hmod
    rcases ev with ⟨mod, del, r⟩
    simp only at hmod
    subst hmod
    simp [applyEvent, h]
  · intro cache ev hmod hdel
    rcases ev with ⟨mod, del, r⟩
    simp only at hmod hdel
    subst hmod
    subst hdel
    simp [applyEvent, h]
  · intro cache hc retryAttempts httpResp decode
    exact FetchK8sState_preserves m myNode _ hP retryAttempts httpResp decode cache hc
  · intro cache hc parse msgs
    exact subscribeLoop_preserves m myNode _ hP parse msgs cache hc

/-- C2 witness: a Modified event for a pod on nodeB leaves the empty cache
of a nodeA enricher untouched. -/
theorem claim2_node_local_only_witness :
    applyEvent mEx "nodeA" Cache.emptyC
      { Modified := some entityBEx, Deleted := none, Refresh := false } =
      Cache.emptyC :=
  (claim2_node_local_only mEx "nodeA" entityBEx (by decide)).2.1
    Cache.emptyC
    { Modified := some entityBEx, Deleted := none, Refresh := false } rfl

/-- C4: an event message whose payload fails to decode leaves the
ContainerIndex unchanged, and the receive loop continues exactly as if the
message had not been received, so subsequent well-formed events are still
applied. -/
theorem claim4_malformed_event_dropped (m : Matcher) (myNode : String)
    (parse : String → Except String K8sRedisEvent) (payload : String)
    (err : String) (hbad : parse payload = .error err) (cache : Cache) :
    (processMessage m myNode parse cache payload = cache)
  ∧ (∀ rest : List (Except String String),
      subscribeLoop m myNode parse cache (.ok payload :: rest) =
      subscribeLoop m myNode parse cache rest) := by
  have h1 : processMessage m myNode parse cache payload = cache := by
    simp [processMessage, hbad]
  refine ⟨h1, ?_⟩
  intro rest
  simp [subscribeLoop, h1]

/-- C4 witness: a parser that rejects every payload leaves the empty cache
unchanged. -/
theorem claim4_malformed_event_dropped_witness :
    processMessage mEx "nodeA" parseFailEx Cache.emptyC "not json" =
      Cache.emptyC :=
  (claim4_malformed_event_dropped mEx "nodeA" parseFailEx "not json"
    "bad JSON" rfl Cache.emptyC).1

/-- C5: for a local-node entity, a Modified event followed by a Deleted
event for the same entity leaves Get returning absent for every canonical
key derived from one of the entity containers. -/
theorem claim5_modified_then_deleted_absent (m : Matcher) (myNode : String)
    (e : K8sEntity) (hlocal : e.Pod.NodeName = myNode) (cache : Cache)
    (c : K8sContainer) (hc : c ∈ e.Pod.Containers) (k : String)
    (hk : m c.Id = some k) :
    (applyEvent m myNode
      (applyEvent m myNode cache
        { Modified := some e, Deleted := none, Refresh := false })
      { Modified := none, Deleted := some e, Refresh := false }).Load k =
      none := by
  show (applyEvent m myNode
      (applyEvent m myNode cache
        { Modified := some e, Deleted := none, Refresh := false })
      { Modified := none, Deleted := some e, Refresh := false }) k = none
  have h1 : applyEvent m myNode
      (applyEvent m myNode cache
        { Modified := some e, Deleted := none, Refresh := false })
      { Modified := none, Deleted := some e, Refresh := false } =
      deletePodContainers m
        (applyEvent m myNode cache
          { Modified := some e, Deleted := none, Refresh := false }) e.Pod := by
    simp [applyEvent, hlocal]
  rw [h1, deletePodContainers_lookup, if_pos ⟨c, hc, hk⟩]

/-- C5 witness: Modified then Deleted for the example local entity leaves
the example key absent. -/
theorem claim5_modified_then_deleted_absent_witness :
    (applyEvent mEx "nodeA"
      (applyEvent mEx "nodeA" Cache.emptyC
        { Modified := some entityEx, Deleted := none, Refresh := false })
      { Modified := none, Deleted := some entityEx, Refresh := false }).Load
      "key-one" = none :=
  claim5_modified_then_deleted_absent mEx "nodeA" entityEx rfl Cache.emptyC
    containerEx (by decide) "key-one" (by decide)

/-- C6: applying the same Modified event twice in succession leaves the
index extensionally equal to applying it once (same keys, same record at
every key), and the Store operation is an idempotent last-write-wins
overwrite. -/
theorem claim6_modified_idempotent (m : Matcher) (myNode : String)
    (cache : Cache) (e : K8sEntity) :
    (applyEvent m myNode
      (applyEvent m myNode cache
        { Modified := some e, Deleted := none, Refresh := false })
      { Modified := some e, Deleted := none, Refresh := false } =
      applyEvent m myNode cache
        { Modified := some e, Deleted := none, Refresh := false })
  ∧ (∀ (c : Cache) (k : String) (v : K8sPod),
      (c.Store k v).Store k v = c.Store k v)
  ∧ (∀ (c : Cache) (k : String) (v₁ v₂ : K8sPod),
      (c.Store k v₁).Store k v₂ = c.Store k v₂) := by
  refine ⟨?_, ?_, ?_⟩
  · by_cases hn : e.Pod.NodeName = myNode
    · simp only [applyEvent, if_pos hn]
      funext k
      by_cases hex : ∃ c ∈ e.Pod.Containers, m c.Id = some k
      · simp [applyPodContainers_lookup, hex]
      · simp [applyPodContainers_lookup, hex]
    · simp [applyEvent, hn]
  · intro c k v
    funext k'
    by_cases h : k' = k <;> simp [Cache.Store, h]
  · intro c k v₁ v₂
    funext k'
    by_cases h : k' = k <;> simp [Cache.Store, h]

/-- C7: a change event with only the Refresh field set leaves the
ContainerIndex completely unchanged, and the receive loop continues as if
the message had not been received (no re-execution of the bootstrap
reconciliation takes place: the loop state is exactly the unchanged
cache). -/
theorem claim7_refresh_unhandled (m : Matcher) (myNode : String)
    (cache : Cache) :
    (applyEvent m myNode cache
      { Modified := none, Deleted := none, Refresh := true } = cache)
  ∧ (∀ (parse : String → Except String K8sRedisEvent) (payload : String)
        (rest : List (Except String String)),
      parse payload = .ok { Modified := none, Deleted := none, Refresh := true } →
      subscribeLoop m myNode parse cache (.ok payload :: rest) =
      subscribeLoop m myNode parse cache rest) := by
  refine ⟨rfl, ?_⟩
  intro parse payload rest hp
  simp [subscribeLoop, processMessage, hp, applyEvent]

/-- C7 witness: a payload parsing to the pure Refresh event leaves the
receive loop state unchanged. -/
theorem claim7_refresh_unhandled_witness :
    subscribeLoop mEx "nodeA" parseRefreshEx Cache.emptyC
      [.ok "refresh-payload"] =
    subscribeLoop mEx "nodeA" parseRefreshEx Cache.emptyC [] :=
  (claim7_refresh_unhandled mEx "nodeA" Cache.emptyC).2 parseRefreshEx
    "refresh-payload" [] rfl

/-- C8: one call to FetchK8sState issues exactly one fetch, returns any
transport or decode error immediately with the cache untouched, and its
behaviour is identical for every value of the configured RetryAttempts
field. -/
theorem claim8_fetch_no_retry (m : Matcher) (myNode : String) (cache : Cache)
    (httpResp : Except String String)
    (decode : String → Except String K8sStateResponse) :
    (∀ r₁ r₂ : Nat,
      FetchK8sState m r₁ httpResp decode myNode cache =
      FetchK8sState m r₂ httpResp decode myNode cache)
  ∧ (∀ r : Nat, (FetchK8sState m r httpResp decode myNode cache).2.2 = 1)
  ∧ (∀ (r : Nat) (e : String), httpResp = .error e →
      FetchK8sState m r httpResp decode myNode cache = (some e, cache, 1))
  ∧ (∀ (r : Nat) (body e : String), httpResp = .ok body →
      decode body = .error e →
      FetchK8sState m r httpResp decode myNode cache = (some e, cache, 1)) := by
  refine ⟨fun r₁ r₂ => rfl, ?_, ?_, ?_⟩
  · intro r
    cases httpResp with
    | error e => rfl
    | ok body =>
        cases hd : decode body with
        | error e => simp [FetchK8sState, hd]
        | ok state => simp [FetchK8sState, hd]
  · intro r e he
    subst he
    rfl
  · intro r body e hb hd
    subst hb
    simp [FetchK8sState, hd]

/-- C8 witness: a failing transport at retry counts 0 and 7 gives the same
immediate error result with one fetch issued. -/
theorem claim8_fetch_no_retry_witness :
    FetchK8sState mEx 0 (Except.error "boom") decodeEx "nodeA" Cache.emptyC =
      FetchK8sState mEx 7 (Except.error "boom") decodeEx "nodeA" Cache.emptyC
  ∧ FetchK8sState mEx 0 (Except.error "boom") decodeEx "nodeA" Cache.emptyC =
      (some "boom", Cache.emptyC, 1) :=
  ⟨(claim8_fetch_no_retry mEx "nodeA" Cache.emptyC (Except.error "boom")
      decodeEx).1 0 7,
   (claim8_fetch_no_retry mEx "nodeA" Cache.emptyC (Except.error "boom")
      decodeEx).2.2.1 0 "boom" rfl⟩

/-- C3 counterexample: the claim that fatal bootstrap and stream failures
are surfaced as explicit error results rather than terminating the process
fails on the code at a concrete input: on a bootstrap fetch error the
K8sWatcher startup call runs log.Fatalf, which terminates the process
(k8swatcher.go line 251), and on a receive error the SubscribeToRedis loop
panics (line 183) instead of returning the error. -/
theorem claim3_error_surfacing_counterexample :
    K8sWatcher mEx "nodeA" (Except.error "boom") decodeEx =
      WatcherOutcome.fatalExit ("Failed to fetch k8s state: " ++ "boom")
  ∧ subscribeLoop mEx "nodeA" parseFailEx Cache.emptyC
      [Except.error "bang"] =
      (StreamOutcome.panicked "bang", Cache.emptyC) :=
  ⟨rfl, rfl⟩

/-- C3 amended: FetchK8sState itself surfaces a transport or decode failure
as an explicit error return to its caller without internal retry; however
the K8sWatcher startup call does not propagate it — it terminates the
process via log.Fatalf on a bootstrap failure — and the SubscribeToRedis
loop responds to a stream-receive failure by panicking, leaving the cache
as it was, instead of returning an error result. -/
theorem claim3_error_surfacing_amended (m : Matcher) (myNode : String)
    (decode : String → Except String K8sStateResponse) (er : String) :
    (∀ (r : Nat) (cache : Cache) (httpResp : Except String String),
      httpResp = .error er →
      FetchK8sState m r httpResp decode myNode cache = (some er, cache, 1))
  ∧ (K8sWatcher m myNode (Except.error er) decode =
      WatcherOutcome.fatalExit ("Failed to fetch k8s state: " ++ er))
  ∧ (∀ (parse : String → Except String K8sRedisEvent) (cache : Cache)
        (msgs : List (Except String String)),
      subscribeLoop m myNode parse cache (Except.error er :: msgs) =
      (StreamOutcome.panicked er, cache)) := by
  refine ⟨?_, rfl, ?_⟩
  · intro r cache httpResp he
    subst he
    rfl
  · intro parse cache msgs
    rfl

/-- C3 amended witness: concrete error inputs produce the fatal exit, the
panic, and the error return of the bare fetch. -/
theorem claim3_error_surfacing_amended_witness :
    FetchK8sState mEx 3 (Except.error "boom") decodeEx "nodeA" Cache.emptyC =
      (some "boom", Cache.emptyC, 1) :=
  (claim3_error_surfacing_amended mEx "nodeA" decodeEx "boom").1 3
    Cache.emptyC (Except.error "boom") rfl

/-- C10: MapFileIDMapper.Get returns true for every key, even absent ones,
in which case it returns the zero-valued FrameMappingFile, so the boolean
cannot distinguish an absent key from a stored zero value; lruFileIDMapper
returns false on a miss. -/
theorem claim10_map_mapper_always_true (fm : MapFileIDMapper) (key : FileID) :
    ((MapFileIDMapper.Get fm key).2 = true)
  ∧ (fm.fileMap key = none →
      MapFileIDMapper.Get fm key = (FrameMappingFile.zeroValue, true))
  ∧ (∀ fm₂ : MapFileIDMapper, fm.fileMap key = none →
      fm₂.fileMap key = some FrameMappingFile.zeroValue →
      MapFileIDMapper.Get fm key = MapFileIDMapper.Get fm₂ key)
  ∧ (∀ lfm : lruFileIDMapper, lfm.cache key = none →
      (lruFileIDMapper.Get lfm key).2 = false) := by
  refine ⟨?_, ?_, ?_, ?_⟩
  · cases h : fm.fileMap key <;> simp [MapFileIDMapper.Get, h]
  · intro h
    simp [MapFileIDMapper.Get, h]
  · intro fm₂ h h₂
    simp [MapFileIDMapper.Get, h, h₂]
  · intro lfm h
    simp [lruFileIDMapper.Get, h]

/-- C10 witness: an empty map mapper and a mapper storing the zero value at
the same key are indistinguishable through Get, while the lru mapper
reports the miss. -/
theorem claim10_map_mapper_always_true_witness :
    MapFileIDMapper.Get { fileMap := fun _ => none } 42 =
      MapFileIDMapper.Get
        { fileMap := fun k =>
            if k = 42 then some FrameMappingFile.zeroValue else none } 42
  ∧ (lruFileIDMapper.Get { cache := fun _ => none } 42).2 = false :=
  ⟨(claim10_map_mapper_always_true { fileMap := fun _ => none } 42).2.2.1
      { fileMap := fun k =>
          if k = 42 then some FrameMappingFile.zeroValue else none }
      rfl (by simp),
   (claim10_map_mapper_always_true { fileMap := fun _ => none } 42).2.2.2
      { cache := fun _ => none } rfl⟩
